import Mathlib

/-
Shallow embedding of the llm-cli agentic tool-call orchestrator
(src/src/main.tsx: the tool executor with approval gate, the diff utility,
and OpenAIHandler.handleUserMessage / handleToolCalls; constants from
src/src/config.ts).  I/O effects (Deno file system, subprocess spawning,
operator prompts, the completion service) are modelled by an explicit
`World` state and an oracle function; machine behaviour that the code
observes (JS falsy checks, `String.prototype.replace` replacing the first
occurrence, JSON.parse failure throwing) is reproduced explicitly.
-/

set_option maxRecDepth 4096

namespace LlmCli

-- Constants from src/src/config.ts (APP_CONFIG).
namespace APP_CONFIG

def DEFAULT_MODEL : String := "gpt-5"

def MAX_RECURSION_DEPTH : Nat := 10

def MAX_COMPLETION_TOKENS : Nat := 10000

end APP_CONFIG

/-- UI message (src/src/config.ts `Message`); the `timestamp : Date` field is
real wall-clock time and is omitted from the embedding. -/
structure Message where
  id : Nat
  role : String
  content : String
deriving DecidableEq, Repr

/-- Directory entry as observed from `Deno.readDir` (name + isDirectory). -/
structure DirEntry where
  name : String
  isDirectory : Bool
deriving DecidableEq, Repr

/-- Explicit state for the effectful host environment: the file system
(`Deno.readTextFile`/`writeTextFile`), directories (`Deno.readDir`), the
queue of operator replies to `prompt()` (consumed in order; `none` models a
null reply), a ghost log of texts displayed to the operator (`console.log`
and the `prompt` banner), and the subprocess oracle for
`Deno.Command("sh", ["-c", cmd])` returning (exit code, stdout, stderr). -/
structure World where
  fs : List (String × String)
  dirs : List (String × List DirEntry)
  promptQueue : List (Option String)
  promptLog : List String
  shellRuns : String → Int × String × String

/-- Association-list lookup (first binding wins). -/
def assocLookup (l : List (String × String)) (k : String) : Option String :=
  match l with
  | [] => none
  | (k2, v) :: rest => if k2 = k then some v else assocLookup rest k

/-- Association-list overwrite, modelling `Deno.writeTextFile`. -/
def assocSet (l : List (String × String)) (k v : String) : List (String × String) :=
  match l with
  | [] => [(k, v)]
  | (k2, v2) :: rest => if k2 = k then (k, v) :: rest else (k2, v2) :: assocSet rest k v

/-- Lookup for the directory table. -/
def dirLookup (l : List (String × List DirEntry)) (k : String) : Option (List DirEntry) :=
  match l with
  | [] => none
  | (k2, v) :: rest => if k2 = k then some v else dirLookup rest k

/-- Read a file from the modelled file system (`Deno.readTextFile`). -/
def fsRead (w : World) (p : String) : Option String :=
  assocLookup w.fs p

/-- Model of `prompt(text)`: records the displayed text and consumes the next
queued operator reply (or yields `none` when the queue is exhausted). -/
def takePrompt (text : String) (w : World) : Option String × World :=
  match w.promptQueue with
  | [] => (none, { w with promptLog := w.promptLog ++ [text] })
  | r :: rest => (r, { w with promptQueue := rest, promptLog := w.promptLog ++ [text] })

/-- Head of the prompt queue, i.e. the reply the next `prompt()` call returns. -/
def promptHead (w : World) : Option String :=
  match w.promptQueue with
  | [] => none
  | r :: _ => r

/-- ASCII lower-casing of one character, modelling the effect of JS
`toLowerCase` on the approval replies the gate compares against. -/
def lowerChar (c : Char) : Char :=
  if 'A' ≤ c ∧ c ≤ 'Z' then Char.ofNat (c.toNat + 32) else c

/-- Lower-case a whole string. -/
def lowerStr (s : String) : String :=
  String.mk (s.toList.map lowerChar)

/-- The approval check of the gate (src/src/main.tsx line 531):
`response?.toLowerCase() === 'y' || response?.toLowerCase() === 'yes'`;
a null reply approves nothing. -/
def approves (resp : Option String) : Bool :=
  match resp with
  | none => false
  | some r => lowerStr r = "y" ∨ lowerStr r = "yes"

/-- Split on newline characters, the embedding of JS `s.split('\n')`
(accumulator holds the current line reversed). -/
def splitLinesL : List Char → List Char → List String
  | [], acc => [String.mk acc.reverse]
  | c :: cs, acc =>
    if c = '\n' then String.mk acc.reverse :: splitLinesL cs []
    else splitLinesL cs (c :: acc)

/-- Split a string into its lines, as JS `split('\n')` does. -/
def splitLines (s : String) : List String :=
  splitLinesL s.toList []

/-- Join with a separator, the embedding of JS `array.join(sep)`. -/
def joinSep (sep : String) : List String → String
  | [] => ""
  | [x] => x
  | x :: y :: xs => x ++ sep ++ joinSep sep (y :: xs)

/-- The bar `"=".repeat(50)` used around diff blocks. -/
def eqBar : String :=
  String.mk (List.replicate 50 '=')

/-- The diff utility (src/src/main.tsx lines 456-487, `createDiff`).  For
each line index up to the longer line count, JS reads
`oldLines[i] || ''` / `newLines[i] || ''` (out-of-range gives `''`, and so
does an actual empty line), compares, and emits removal/addition lines
guarded by `!== undefined` checks on the raw index. -/
def createDiff (oldContent newContent filePath : String) : String :=
  let oldLines := splitLines oldContent
  let newLines := splitLines newContent
  let diff := "📝 Changes to " ++ filePath ++ ":\n" ++ eqBar ++ "\n"
  let maxLines := max oldLines.length newLines.length
  let st := (List.range maxLines).foldl (fun st i =>
    let oldLine := (oldLines.get? i).getD ""
    let newLine := (newLines.get? i).getD ""
    if oldLine ≠ newLine then
      let d := st.1
      let d := match oldLines.get? i with
        | some _ => d ++ "- " ++ toString (i + 1) ++ ": " ++ oldLine ++ "\n"
        | none => d
      let d := match newLines.get? i with
        | some _ => d ++ "+ " ++ toString (i + 1) ++ ": " ++ newLine ++ "\n"
        | none => d
      (d, true)
    else st) (diff, false)
  let diff := if st.2 then st.1 else st.1 ++ "No changes detected.\n"
  diff ++ eqBar

/-- The new-file preview block (src/src/main.tsx lines 513-520): first ten
lines of the content plus a remainder count. -/
def creationPreview (path newContent : String) : String :=
  let lines := splitLines newContent
  let preview := "📝 Creating new file: " ++ path ++ "\n" ++ eqBar ++ "\n"
      ++ "Content preview:\n" ++ joinSep "\n" (lines.take 10)
  let preview := if lines.length > 10
    then preview ++ "\n... (" ++ toString (lines.length - 10) ++ " more lines)"
    else preview
  preview ++ "\n" ++ eqBar

/-- A tool call as handed to the executor after the driver has parsed the
raw JSON arguments (src/src/main.tsx `ToolCall`): argument objects of the
five tools are flat string-valued records. -/
structure ToolCall where
  name : String
  args : List (String × String)
deriving DecidableEq, Repr

/-- Property access `args.k` on the parsed argument object: `none` models
JS `undefined`. -/
def lookupArg (args : List (String × String)) (k : String) : Option String :=
  assocLookup args k

/-- The failure wrapper of the executor's catch-all
(src/src/main.tsx line 569). -/
def errRes (name msg : String) : String :=
  "Error executing " ++ (name ++ (": " ++ msg))

/-- The tool executor (src/src/main.tsx lines 490-571, `executeTool`).  The
JS switch over the tool name becomes an if-chain; every throw site of a
handler maps to the catch-all `errRes` result with the state as of the
throw, so the function is total — the embedding of "never raises". -/
def executeTool (tc : ToolCall) (w : World) : String × World :=
  if tc.name = "read_file" then
    match lookupArg tc.args "path" with
    | none => (errRes tc.name "path must be a string", w)
    | some p =>
      match fsRead w p with
      | none => (errRes tc.name ("No such file or directory: " ++ p), w)
      | some content => ("File contents of " ++ (p ++ (":\n" ++ content)), w)
  else if tc.name = "write_file" then
    let path? := lookupArg tc.args "path"
    let old? := path?.bind (fun p => fsRead w p)
    match lookupArg tc.args "content" with
    | none => (errRes tc.name "content must be a string", w)
    | some newContent =>
      let diffDisplay :=
        match old? with
        | none => creationPreview (path?.getD "undefined") newContent
        | some old => createDiff old newContent (path?.getD "undefined")
      let w1 := { w with promptLog := w.promptLog ++ [diffDisplay] }
      let pr := takePrompt ("\n" ++ diffDisplay ++ "\n\nApprove these changes? (y/N): ") w1
      if approves pr.1 then
        match path? with
        | none => (errRes tc.name "path must be a string", pr.2)
        | some p =>
          ("✅ Successfully wrote to " ++ p, { pr.2 with fs := assocSet pr.2.fs p newContent })
      else ("❌ File write cancelled by user", pr.2)
  else if tc.name = "list_files" then
    let dirPath :=
      match lookupArg tc.args "path" with
      | some p => if p = "" then "." else p
      | none => "."
    match dirLookup w.dirs dirPath with
    | none => (errRes tc.name ("No such file or directory: " ++ dirPath), w)
    | some entries =>
      ("Contents of " ++ (dirPath ++ (":\n" ++
        joinSep "\n" (entries.map (fun e =>
          (if e.isDirectory then "📁" else "📄") ++ " " ++ e.name)))), w)
  else if tc.name = "run_command" then
    match lookupArg tc.args "command" with
    | none => (errRes tc.name "command must be a string", w)
    | some c =>
      let r := w.shellRuns c
      if r.1 ≠ 0 then
        ("Command failed (exit code " ++ (toString r.1 ++ ("):\n" ++ r.2.2)), w)
      else ("Command output:\n" ++ r.2.1, w)
  else if tc.name = "finished" then
    ("CONVERSATION_COMPLETE:" ++ (lookupArg tc.args "summary").getD "undefined", w)
  else ("Unknown tool: " ++ tc.name, w)

/-- JS `result.startsWith(pat)`. -/
def startsWithLit (s pat : String) : Bool :=
  pat.toList.isPrefixOf s.toList

/-- Character-list core of `replaceFirst`: remove the first occurrence of
`pat`, leaving the input unchanged when `pat` does not occur. -/
def replaceFirstL (pat : List Char) : List Char → List Char
  | [] => []
  | c :: cs =>
    if pat.isPrefixOf (c :: cs) then (c :: cs).drop pat.length
    else c :: replaceFirstL pat cs

/-- JS `s.replace(pat, "")`, which removes only the FIRST occurrence of the
substring `pat` (src/src/main.tsx line 698). -/
def replaceFirst (s pat : String) : String :=
  String.mk (replaceFirstL pat.toList s.toList)

/-- JS `value || fallback` on a nullable string: both null/undefined and the
empty string are falsy and select the fallback. -/
def contentOrDefault (c? : Option String) (d : String) : String :=
  match c? with
  | some c => if c = "" then d else c
  | none => d

/-- The `function` payload of a raw tool call from the completion service:
a tool name plus the raw JSON text of the arguments. -/
structure RawFunction where
  name : String
  arguments : String
deriving DecidableEq, Repr

/-- A raw tool call in a service reply; `function?` is optional because the
driver guards each call with `if (toolCall.function)`. -/
structure RawToolCall where
  id : String
  function? : Option RawFunction
deriving DecidableEq, Repr

/-- A structured reply from the completion service: nullable text content
and an optional array of tool calls (`tool_calls?` = some [] is a present
but empty array, which JS treats as truthy). -/
structure ReplyMsg where
  content? : Option String
  tool_calls? : Option (List RawToolCall)
deriving DecidableEq, Repr

/-- One entry of the message array sent to the completion service. -/
inductive ChatMsg where
  | system (content : String)
  | plain (role : String) (content : String)
  | assistantCalls (content? : Option String) (calls : List RawToolCall)
  | toolResult (content : String) (tool_call_id : String)
deriving DecidableEq, Repr

/-- The `tool_call_id` field of a chat message, when it is a tool result. -/
def ChatMsg.toolCallId? : ChatMsg → Option String
  | .toolResult _ i => some i
  | _ => none

/-- Whether a chat message is a tool result carrying the termination
sentinel prefix. -/
def msgIsSentinel : ChatMsg → Bool
  | .toolResult c _ => startsWithLit c "CONVERSATION_COMPLETE:"
  | _ => false

/-- Skip JSON whitespace. -/
def skipWs : List Char → List Char
  | [] => []
  | c :: cs =>
    if c = ' ' ∨ c = '\n' ∨ c = '\t' ∨ c = '\r' then skipWs cs
    else c :: cs

/-- Parse a JSON string literal (no escape sequences), returning the string
and the rest of the input. -/
def parseStr : List Char → Option (String × List Char)
  | c :: cs => if c = '\"' then parseStrRest cs [] else none
  | [] => none
where
  parseStrRest : List Char → List Char → Option (String × List Char)
    | [], _ => none
    | c :: cs, acc =>
      if c = '\"' then some (String.mk acc.reverse, cs)
      else parseStrRest cs (c :: acc)

/-- Parse one or more `"key":"value"` pairs separated by commas. -/
def parsePairs : Nat → List Char → Option (List (String × String) × List Char)
  | 0, _ => none
  | fuel + 1, l =>
    match parseStr (skipWs l) with
    | none => none
    | some (k, l1) =>
      match skipWs l1 with
      | c :: l2 =>
        if c = ':' then
          match parseStr (skipWs l2) with
          | none => none
          | some (v, l3) =>
            match skipWs l3 with
            | c2 :: l4 =>
              if c2 = ',' then
                match parsePairs fuel l4 with
                | none => none
                | some (ps, rest) => some ((k, v) :: ps, rest)
              else some ([(k, v)], c2 :: l4)
            | [] => some ([(k, v)], [])
        else none
      | [] => none

/-- Model of `JSON.parse` restricted to the shape every tool's argument
object takes: a flat object with string keys and string values.  Returns
`none` exactly where `JSON.parse` would throw a SyntaxError. -/
def parseJsonObj (s : String) : Option (List (String × String)) :=
  match skipWs s.toList with
  | c :: rest =>
    if c = Char.ofNat 123 then
      match skipWs rest with
      | c2 :: tail =>
        if c2 = Char.ofNat 125 then
          if (skipWs tail).isEmpty then some [] else none
        else
          match parsePairs (s.length + 1) (c2 :: tail) with
          | none => none
          | some (ps, rest2) =>
            match skipWs rest2 with
            | c3 :: tail2 =>
              if c3 = Char.ofNat 125 then
                if (skipWs tail2).isEmpty then some ps else none
              else none
            | [] => none
      | [] => none
    else none
  | [] => none

/-- A tool call the driver can process: the `function` payload is present
and its raw argument text parses as JSON. -/
def toolCallOk (tc : RawToolCall) : Bool :=
  match tc.function? with
  | none => false
  | some fn => (parseJsonObj fn.arguments).isSome

/-- The only exception that can escape the embedded turn driver: a
SyntaxError from `JSON.parse` on a tool call's raw argument text
(src/src/main.tsx line 686, outside every try/catch of the driver). -/
inductive TurnError where
  | parseFailure (toolName : String) (rawArguments : String)
deriving DecidableEq, Repr

/-- Map the UI history into completion-request entries
(`messages.map(msg => ({role, content}))`). -/
def toChatMsgs (messages : List Message) : List ChatMsg :=
  messages.map (fun m => ChatMsg.plain m.role m.content)

/-- The fixed base of every request the driver builds: system prompt, the
prior UI history, and the user input (src/src/main.tsx lines 602-609 and
662-668). -/
def chatBase (systemPrompt : String) (messages : List Message) (userInput : String) :
    List ChatMsg :=
  ChatMsg.system systemPrompt :: (toChatMsgs messages ++ [ChatMsg.plain "user" userInput])

/-- The tool-call execution loop (src/src/main.tsx lines 672-709): run every
call carrying a `function` payload in order, threading the world, and
collect the appended tool-result messages together with the
`conversationFinished` flag and `finishedSummary` (the LAST sentinel
assignment wins, and the flag is sticky).  A JSON.parse failure aborts with
a `TurnError`, as the uncaught SyntaxError does in the source. -/
def runBatch (w : World) : List RawToolCall →
    Except TurnError (List ChatMsg × Bool × String × World)
  | [] => .ok ([], false, "", w)
  | tc :: rest =>
    match tc.function? with
    | none => runBatch w rest
    | some fn =>
      match parseJsonObj fn.arguments with
      | none => .error (TurnError.parseFailure fn.name fn.arguments)
      | some args =>
        let r := executeTool ⟨fn.name, args⟩ w
        let fin := startsWithLit r.1 "CONVERSATION_COMPLETE:"
        let summ := if fin then replaceFirst r.1 "CONVERSATION_COMPLETE:" else ""
        match runBatch r.2 rest with
        | .error e => .error e
        | .ok (msgs, fin2, summ2, w2) =>
          .ok (ChatMsg.toolResult r.1 tc.id :: msgs, fin || fin2,
               if fin2 then summ2 else summ, w2)

/-- The recursive driver `OpenAIHandler.handleToolCalls`
(src/src/main.tsx lines 640-779), with the recursion depth replaced by the
equivalent structural fuel `MAX_RECURSION_DEPTH - depth` (fuel 0 is exactly
the `depth >= MAX_RECURSION_DEPTH` guard, and the recursive call at
`depth + 1` has fuel one less).  The oracle stands for the completion
service; the result carries the UI messages appended via `setMessages`, the
final world, and the ghost log of requests sent to the service. -/
def handleToolCallsFrom (oracle : List ChatMsg → ReplyMsg) (message : ReplyMsg)
    (messages : List Message) (userInput systemPrompt : String) (w : World) :
    Nat → Except TurnError (List Message × World × List (List ChatMsg))
  | 0 =>
    .ok ([⟨messages.length + 2, "assistant",
          "I\x27ve reached the maximum number of tool calls. Please try breaking your request into smaller parts."⟩],
         w, [])
  | fuel + 1 =>
    match runBatch w (message.tool_calls?.getD []) with
    | .error e => .error e
    | .ok (toolMsgs, conversationFinished, finishedSummary, w1) =>
      let conversationMessages :=
        chatBase systemPrompt messages userInput
          ++ [ChatMsg.assistantCalls message.content? (message.tool_calls?.getD [])]
          ++ toolMsgs
      if conversationFinished then
        .ok ([⟨messages.length + 2, "assistant",
              contentOrDefault message.content? ("Task completed: " ++ finishedSummary)⟩],
             w1, [])
      else
        let nextMessage := oracle conversationMessages
        match nextMessage.tool_calls? with
        | some _ =>
          match handleToolCallsFrom oracle nextMessage messages userInput systemPrompt w1 fuel with
          | .error e => .error e
          | .ok (ms, w2, reqs) => .ok (ms, w2, conversationMessages :: reqs)
        | none =>
          .ok ([⟨messages.length + 2, "assistant",
                contentOrDefault nextMessage.content?
                  "I completed the task but couldn\x27t provide a final response."⟩],
               w1, [conversationMessages])

/-- `handleToolCalls` at a given recursion depth. -/
def handleToolCalls (oracle : List ChatMsg → ReplyMsg) (message : ReplyMsg)
    (messages : List Message) (userInput systemPrompt : String) (w : World) (depth : Nat) :
    Except TurnError (List Message × World × List (List ChatMsg)) :=
  handleToolCallsFrom oracle message messages userInput systemPrompt w
    (APP_CONFIG.MAX_RECURSION_DEPTH - depth)

/-- `OpenAIHandler.handleUserMessage` (src/src/main.tsx lines 587-638):
send the base request; if the reply carries tool calls (any non-null array
is truthy), hand off to `handleToolCalls` at depth 0, else append the
assistant reply (with the fixed fallback text for falsy content). -/
def handleUserMessage (oracle : List ChatMsg → ReplyMsg) (userInput : String)
    (messages : List Message) (systemPrompt : String) (w : World) :
    Except TurnError (List Message × World × List (List ChatMsg)) :=
  let req0 := chatBase systemPrompt messages userInput
  let message := oracle req0
  match message.tool_calls? with
  | some _ =>
    match handleToolCalls oracle message messages userInput systemPrompt w 0 with
    | .error e => .error e
    | .ok (ms, w2, reqs) => .ok (ms, w2, req0 :: reqs)
  | none =>
    .ok ([⟨messages.length + 2, "assistant",
          contentOrDefault message.content? "Sorry, I couldn\x27t process that request."⟩],
         w, [req0])

/-- Project out the ghost request log of a turn. -/
def requestsOf (r : Except TurnError (List Message × World × List (List ChatMsg))) :
    Option (List (List ChatMsg)) :=
  match r with
  | .ok (_, _, reqs) => some reqs
  | .error _ => none

/-- An empty world: no files, no directories, no queued operator replies,
every shell command exits 0 with empty output. -/
def w0 : World :=
  ⟨[], [], [], [], fun _ => (0, "", "")⟩

/-- A reply with no content and no tool calls. -/
def msg0 : ReplyMsg :=
  ⟨none, none⟩

/-- A completion oracle that always answers with `msg0`. -/
def oracle0 : List ChatMsg → ReplyMsg :=
  fun _ => msg0

/-- Concrete batch: a `finished` call followed by a `read_file` call, to
observe that the call after the sentinel still executes. -/
def callsW : List RawToolCall :=
  [⟨"c1", some ⟨"finished", "\x7b\"summary\":\"done\"\x7d"⟩⟩,
   ⟨"c2", some ⟨"read_file", "\x7b\"path\":\"a.txt\"\x7d"⟩⟩]

/-- World holding `a.txt` with contents `x` and an operator who answers the
next prompt with `y`. -/
def wYes : World :=
  ⟨[("a.txt", "x")], [], [some "y"], [], fun _ => (0, "", "")⟩

/-- World holding `a.txt` with contents `x` and an operator who answers the
next prompt with `n`. -/
def wNo : World :=
  ⟨[("a.txt", "x")], [], [some "n"], [], fun _ => (0, "", "")⟩

/-- World whose shell runs `true` with exit 0 (stdout `ok`, stderr `junk`)
and everything else with exit 1 (stdout `junk`, stderr `boom`). -/
def wSh : World :=
  ⟨[], [], [], [], fun c => if c = "true" then (0, "ok", "junk") else (1, "junk", "boom")⟩

/-- First-round reply of the two-round scenario: one call to the unknown
tool `noopA`. -/
def mA : ReplyMsg :=
  ⟨some "c1", some [⟨"ia", some ⟨"noopA", "\x7b\x7d"⟩⟩]⟩

/-- Second-round reply: one call to the unknown tool `noopB`. -/
def mB : ReplyMsg :=
  ⟨some "c2", some [⟨"ib", some ⟨"noopB", "\x7b\x7d"⟩⟩]⟩

/-- Terminal reply with plain text and no tool calls. -/
def mEnd : ReplyMsg :=
  ⟨some "done", none⟩

/-- Deterministic completion oracle for a two-round tool scenario: answers
the base request with `mA`, the request ending in `noopA`'s result with
`mB`, and everything else with `mEnd`. -/
def oracleC2 : List ChatMsg → ReplyMsg :=
  fun req =>
    match req.getLast? with
    | some (ChatMsg.toolResult r _) =>
      if r = "Unknown tool: noopA" then mB else mEnd
    | _ => mA

/-- The base request of the two-round scenario. -/
def reqBaseV : List ChatMsg :=
  [ChatMsg.system "s", ChatMsg.plain "user" "hi"]

/-- The first tool-round request actually sent in the two-round scenario. -/
def req1V : List ChatMsg :=
  reqBaseV ++ [ChatMsg.assistantCalls (some "c1") [⟨"ia", some ⟨"noopA", "\x7b\x7d"⟩⟩],
               ChatMsg.toolResult "Unknown tool: noopA" "ia"]

/-- The second tool-round request actually sent in the two-round scenario. -/
def req2V : List ChatMsg :=
  reqBaseV ++ [ChatMsg.assistantCalls (some "c2") [⟨"ib", some ⟨"noopB", "\x7b\x7d"⟩⟩],
               ChatMsg.toolResult "Unknown tool: noopB" "ib"]

/-- A reply whose single tool call carries argument text that is not JSON. -/
def msgBadArgs : ReplyMsg :=
  ⟨some "t", some [⟨"b1", some ⟨"read_file", "nope"⟩⟩]⟩

/-- A reply with a well-formed `list_files` call followed by a call whose
argument text is not JSON. -/
def msgMixedBad : ReplyMsg :=
  ⟨none, some [⟨"i1", some ⟨"list_files", "\x7b\x7d"⟩⟩,
               ⟨"i2", some ⟨"read_file", "oops"⟩⟩]⟩

/-- A reply whose only tool call is `finished(summary="Listed 3 files")`
with null textual content. -/
def msg7 : ReplyMsg :=
  ⟨none, some [⟨"f1", some ⟨"finished", "\x7b\"summary\":\"Listed 3 files\"\x7d"⟩⟩]⟩

/-- Rebuilding a string from its character list is the identity. -/
theorem mk_toList (s : String) : String.mk s.toList = s :=
  rfl

/-- Character list of an append. -/
theorem toList_append (a b : String) : (a ++ b).toList = a.toList ++ b.toList :=
  String.data_append a b

/-- A list is a Boolean prefix of itself followed by anything. -/
theorem isPrefixOf_self_append (l t : List Char) : l.isPrefixOf (l ++ t) = true := by
  induction l with
  | nil => cases t <;> rfl
  | cons c cs ih => simp [List.isPrefixOf, ih]

/-- Removing the first occurrence of `pat` from `pat ++ t` leaves `t`. -/
theorem replaceFirstL_append (pat t : List Char) : replaceFirstL pat (pat ++ t) = t := by
  cases pat with
  | nil =>
    cases t with
    | nil => rfl
    | cons c cs => simp [replaceFirstL, List.isPrefixOf]
  | cons p ps =>
    show replaceFirstL (p :: ps) ((p :: ps) ++ t) = t
    rw [List.cons_append]
    unfold replaceFirstL
    rw [show p :: (ps ++ t) = (p :: ps) ++ t from rfl, isPrefixOf_self_append]
    simp [List.drop_left]

/-- If neither of `pat` and `l1` is a prefix of the other, then `pat` is not
a prefix of `l1 ++ l2` for any `l2`. -/
theorem isPrefixOf_append_false (pat : List Char) :
    ∀ l1 l2 : List Char, l1.isPrefixOf pat = false → pat.isPrefixOf l1 = false →
      pat.isPrefixOf (l1 ++ l2) = false := by
  induction pat with
  | nil =>
    intro l1 l2 _ h2
    simp [List.isPrefixOf] at h2
  | cons p ps ih =>
    intro l1 l2 h1 h2
    cases l1 with
    | nil => simp [List.isPrefixOf] at h1
    | cons a as =>
      rw [List.cons_append]
      cases hpa : p == a with
      | false => simp [List.isPrefixOf, hpa]
      | true =>
        have hap : (a == p) = true := by
          have := eq_of_beq hpa
          subst this
          exact hpa
        simp only [List.isPrefixOf, hpa, Bool.true_and]
        simp only [List.isPrefixOf, hap, Bool.true_and] at h1
        simp only [List.isPrefixOf, hpa, Bool.true_and] at h2
        exact ih as l2 h1 h2

/-- Any string headed by a fixed literal that neither extends nor is
extended by the sentinel cannot start with the sentinel. -/
theorem startsWithLit_append_false (lit x : String)
    (h1 : lit.toList.isPrefixOf ("CONVERSATION_COMPLETE:".toList) = false)
    (h2 : ("CONVERSATION_COMPLETE:".toList).isPrefixOf lit.toList = false) :
    startsWithLit (lit ++ x) "CONVERSATION_COMPLETE:" = false := by
  unfold startsWithLit
  rw [toList_append]
  exact isPrefixOf_append_false _ _ _ h1 h2

/-- A sentinel-tagged string starts with the sentinel. -/
theorem startsWithLit_self_append (pat s : String) :
    startsWithLit (pat ++ s) pat = true := by
  unfold startsWithLit
  rw [toList_append]
  exact isPrefixOf_self_append _ _

/-- Removing the first occurrence of `pat` from `pat ++ s` recovers `s`. -/
theorem replaceFirst_self_append (pat s : String) :
    replaceFirst (pat ++ s) pat = s := by
  unfold replaceFirst
  rw [toList_append, replaceFirstL_append]
  exact mk_toList s

/-- Lookup after an association-list overwrite. -/
theorem assocLookup_assocSet (l : List (String × String)) (k v q : String) :
    assocLookup (assocSet l k v) q = if q = k then some v else assocLookup l q := by
  induction l with
  | nil =>
    simp only [assocSet, assocLookup]
    by_cases h : q = k
    · subst h; simp
    · have h2 : ¬ k = q := fun e => h e.symm
      simp [h, h2]
  | cons hd rest ih =>
    obtain ⟨k2, v2⟩ := hd
    simp only [assocSet]
    by_cases hk : k2 = k
    · subst hk
      rw [if_pos rfl]
      simp only [assocLookup]
      by_cases hq : q = k2
      · subst hq; simp
      · have h2 : ¬ k2 = q := fun e => hq e.symm
        simp [hq, h2]
    · rw [if_neg hk]
      simp only [assocLookup]
      by_cases h2 : k2 = q
      · subst h2
        have hqk : ¬ k2 = k := hk
        rw [if_pos rfl, if_neg hqk, if_pos rfl]
      · rw [if_neg h2, ih]
        by_cases hq : q = k
        · simp [hq]
        · simp [hq, h2]

/-- A fold whose step never changes the accumulator is the identity. -/
theorem foldl_fixed {α β : Type} (f : α → β → α) (l : List β) (a : α)
    (h : ∀ acc x, f acc x = acc) : l.foldl f a = a := by
  induction l generalizing a with
  | nil => rfl
  | cons x xs ih => rw [List.foldl_cons, h, ih]

/-- The reply a `prompt()` call returns is the head of the queue, whatever
text is displayed. -/
theorem takePrompt_fst (t : String) (w : World) :
    (takePrompt t w).1 = promptHead w := by
  unfold takePrompt promptHead
  cases w.promptQueue <;> rfl

/-- Every message the batch loop appends is a tool-result message. -/
theorem runBatch_msgs_shape (calls : List RawToolCall) :
    ∀ (w : World) msgs fin summ w2,
      runBatch w calls = .ok (msgs, fin, summ, w2) →
      ∀ t ∈ msgs, ∃ c i, t = ChatMsg.toolResult c i := by
  induction calls with
  | nil =>
    intro w msgs fin summ w2 h
    simp only [runBatch, Except.ok.injEq, Prod.mk.injEq] at h
    obtain ⟨h1, _⟩ := h
    subst h1
    intro t ht
    cases ht
  | cons tc rest ih =>
    intro w msgs fin summ w2 h
    simp only [runBatch] at h
    cases hfn : tc.function? with
    | none =>
      simp only [hfn] at h
      exact ih w msgs fin summ w2 h
    | some fn =>
      simp only [hfn] at h
      cases hp : parseJsonObj fn.arguments with
      | none => simp only [hp] at h; cases h
      | some args =>
        simp only [hp] at h
        cases hrb : runBatch (executeTool ⟨fn.name, args⟩ w).2 rest with
        | error e => simp only [hrb] at h; cases h
        | ok r =>
          obtain ⟨msgs2, fin2, summ2, w3⟩ := r
          simp only [hrb, Except.ok.injEq, Prod.mk.injEq] at h
          obtain ⟨h1, _, _, _⟩ := h
          subst h1
          intro t ht
          cases ht with
          | head => exact ⟨_, _, rfl⟩
          | tail _ ht2 => exact ih _ msgs2 fin2 summ2 w3 hrb t ht2

/-- A batch whose calls all parse up to one whose raw argument text does not
parse aborts with exactly that call's SyntaxError. -/
theorem runBatch_append_parseError (pre : List RawToolCall) :
    ∀ (w : World) (bad : RawToolCall) (rest : List RawToolCall) (fn : RawFunction),
      (∀ tc ∈ pre, toolCallOk tc = true) →
      bad.function? = some fn →
      parseJsonObj fn.arguments = none →
      runBatch w (pre ++ bad :: rest) =
        .error (TurnError.parseFailure fn.name fn.arguments) := by
  induction pre with
  | nil =>
    intro w bad rest fn _ hfn hp
    simp only [List.nil_append, runBatch, hfn, hp]
  | cons tc pre2 ih =>
    intro w bad rest fn hok hfn hp
    have htc : toolCallOk tc = true := hok tc (List.mem_cons_self _ _)
    have hok2 : ∀ x ∈ pre2, toolCallOk x = true :=
      fun x hx => hok x (List.mem_cons_of_mem _ hx)
    unfold toolCallOk at htc
    cases hfn2 : tc.function? with
    | none => simp only [hfn2] at htc; cases htc
    | some fn2 =>
      simp only [hfn2] at htc
      cases hp2 : parseJsonObj fn2.arguments with
      | none => simp only [hp2, Option.isSome] at htc; cases htc
      | some args =>
        rw [List.cons_append]
        simp only [runBatch, hfn2, hp2]
        rw [ih (executeTool ⟨fn2.name, args⟩ w).2 bad rest fn hok2 hfn hp]

/-- The driver sends at most `fuel` follow-up requests, i.e. at most
`MAX_RECURSION_DEPTH - depth` rounds happen below a given depth. -/
theorem handleToolCallsFrom_reqs_len (fuel : Nat) :
    ∀ (oracle : List ChatMsg → ReplyMsg) (message : ReplyMsg) (messages : List Message)
      (userInput systemPrompt : String) (w : World) ms w2 reqs,
      handleToolCallsFrom oracle message messages userInput systemPrompt w fuel =
        .ok (ms, w2, reqs) →
      reqs.length ≤ fuel := by
  induction fuel with
  | zero =>
    intro oracle message messages ui sp w ms w2 reqs h
    simp only [handleToolCallsFrom, Except.ok.injEq, Prod.mk.injEq] at h
    obtain ⟨_, _, h3⟩ := h
    subst h3
    exact Nat.le_refl 0
  | succ fuel ih =>
    intro oracle message messages ui sp w ms w2 reqs h
    simp only [handleToolCallsFrom] at h
    cases hrb : runBatch w (message.tool_calls?.getD []) with
    | error e => simp only [hrb] at h; cases h
    | ok r =>
      obtain ⟨toolMsgs, fin, summ, w1⟩ := r
      simp only [hrb] at h
      cases fin with
      | true =>
        rw [if_pos rfl] at h
        simp only [Except.ok.injEq, Prod.mk.injEq] at h
        obtain ⟨_, _, h3⟩ := h
        subst h3
        exact Nat.zero_le _
      | false =>
        rw [if_neg (by simp)] at h
        cases hnc : (oracle (chatBase sp messages ui ++
            [ChatMsg.assistantCalls message.content? (message.tool_calls?.getD [])] ++
            toolMsgs)).tool_calls? with
        | some calls2 =>
          simp only [hnc] at h
          cases hrec : handleToolCallsFrom oracle
              (oracle (chatBase sp messages ui ++
                [ChatMsg.assistantCalls message.content? (message.tool_calls?.getD [])] ++
                toolMsgs)) messages ui sp w1 fuel with
          | error e => simp only [hrec] at h; cases h
          | ok r2 =>
            obtain ⟨ms2, w3, reqs2⟩ := r2
            simp only [hrec, Except.ok.injEq, Prod.mk.injEq] at h
            obtain ⟨_, _, h3⟩ := h
            subst h3
            have := ih oracle _ messages ui sp w1 ms2 w3 reqs2 hrec
            simpa using Nat.succ_le_succ this
        | none =>
          simp only [hnc, Except.ok.injEq, Prod.mk.injEq] at h
          obtain ⟨_, _, h3⟩ := h
          subst h3
          simp

/-- Every request the driver sends during tool resolution is the fixed base
history followed by ONE assistant tool-call message and its tool results:
requests never accumulate earlier rounds. -/
theorem handleToolCallsFrom_reqs_shape (fuel : Nat) :
    ∀ (oracle : List ChatMsg → ReplyMsg) (message : ReplyMsg) (messages : List Message)
      (userInput systemPrompt : String) (w : World) ms w2 reqs,
      handleToolCallsFrom oracle message messages userInput systemPrompt w fuel =
        .ok (ms, w2, reqs) →
      ∀ r ∈ reqs, ∃ m calls tms,
        r = chatBase systemPrompt messages userInput ++
            (ChatMsg.assistantCalls m calls :: tms) ∧
        ∀ t ∈ tms, ∃ c i, t = ChatMsg.toolResult c i := by
  induction fuel with
  | zero =>
    intro oracle message messages ui sp w ms w2 reqs h
    simp only [handleToolCallsFrom, Except.ok.injEq, Prod.mk.injEq] at h
    obtain ⟨_, _, h3⟩ := h
    subst h3
    intro r hr
    cases hr
  | succ fuel ih =>
    intro oracle message messages ui sp w ms w2 reqs h
    simp only [handleToolCallsFrom] at h
    cases hrb : runBatch w (message.tool_calls?.getD []) with
    | error e => simp only [hrb] at h; cases h
    | ok rr =>
      obtain ⟨toolMsgs, fin, summ, w1⟩ := rr
      simp only [hrb] at h
      have hshape : ∀ t ∈ toolMsgs, ∃ c i, t = ChatMsg.toolResult c i :=
        runBatch_msgs_shape _ _ _ _ _ _ hrb
      have hconv : chatBase sp messages ui ++
          [ChatMsg.assistantCalls message.content? (message.tool_calls?.getD [])] ++
          toolMsgs =
          chatBase sp messages ui ++
          (ChatMsg.assistantCalls message.content? (message.tool_calls?.getD []) :: toolMsgs) := by
        simp [List.append_assoc]
      cases fin with
      | true =>
        rw [if_pos rfl] at h
        simp only [Except.ok.injEq, Prod.mk.injEq] at h
        obtain ⟨_, _, h3⟩ := h
        subst h3
        intro r hr
        cases hr
      | false =>
        rw [if_neg (by simp)] at h
        cases hnc : (oracle (chatBase sp messages ui ++
            [ChatMsg.assistantCalls message.content? (message.tool_calls?.getD [])] ++
            toolMsgs)).tool_calls? with
        | some calls2 =>
          simp only [hnc] at h
          cases hrec : handleToolCallsFrom oracle
              (oracle (chatBase sp messages ui ++
                [ChatMsg.assistantCalls message.content? (message.tool_calls?.getD [])] ++
                toolMsgs)) messages ui sp w1 fuel with
          | error e => simp only [hrec] at h; cases h
          | ok r2 =>
            obtain ⟨ms2, w3, reqs2⟩ := r2
            simp only [hrec, Except.ok.injEq, Prod.mk.injEq] at h
            obtain ⟨_, _, h3⟩ := h
            subst h3
            intro r hr
            cases hr with
            | head =>
              exact ⟨message.content?, message.tool_calls?.getD [], toolMsgs, hconv, hshape⟩
            | tail _ hr2 =>
              exact ih oracle _ messages ui sp w1 ms2 w3 reqs2 hrec r hr2
        | none =>
          simp only [hnc, Except.ok.injEq, Prod.mk.injEq] at h
          obtain ⟨_, _, h3⟩ := h
          subst h3
          intro r hr
          cases hr with
          | head =>
            exact ⟨message.content?, message.tool_calls?.getD [], toolMsgs, hconv, hshape⟩
          | tail _ hr2 => cases hr2

/-- C1: for every assistant reply batch of tool calls (each carrying a
parseable `function` payload), the driver's execution loop appends exactly
one tool-result message per call, correlated in order by the call's id, and
the termination flag is computed from ALL the results — every call in the
batch executes (in order, threading the world) before termination is
evaluated, even when an earlier result is the sentinel. -/
theorem C1_batch_one_result_per_call (w : World) (calls : List RawToolCall)
    (h : ∀ tc ∈ calls, toolCallOk tc = true) :
    ∃ msgs fin summ w2,
      runBatch w calls = .ok (msgs, fin, summ, w2) ∧
      msgs.map ChatMsg.toolCallId? = calls.map (fun tc => some tc.id) ∧
      fin = msgs.any msgIsSentinel := by
  induction calls generalizing w with
  | nil => exact ⟨[], false, "", w, rfl, rfl, rfl⟩
  | cons tc rest ih =>
    have htc : toolCallOk tc = true := h tc (List.mem_cons_self _ _)
    have hrest : ∀ x ∈ rest, toolCallOk x = true :=
      fun x hx => h x (List.mem_cons_of_mem _ hx)
    unfold toolCallOk at htc
    cases hfn : tc.function? with
    | none => simp only [hfn] at htc; cases htc
    | some fn =>
      simp only [hfn] at htc
      cases hp : parseJsonObj fn.arguments with
      | none => simp only [hp, Option.isSome] at htc; cases htc
      | some args =>
        obtain ⟨msgs, fin2, summ2, w2, hrb, hmap, hany⟩ :=
          ih (executeTool ⟨fn.name, args⟩ w).2 hrest
        refine ⟨ChatMsg.toolResult (executeTool ⟨fn.name, args⟩ w).1 tc.id :: msgs,
          startsWithLit (executeTool ⟨fn.name, args⟩ w).1 "CONVERSATION_COMPLETE:" || fin2,
          (if fin2 then summ2 else
            if startsWithLit (executeTool ⟨fn.name, args⟩ w).1 "CONVERSATION_COMPLETE:" then
              replaceFirst (executeTool ⟨fn.name, args⟩ w).1 "CONVERSATION_COMPLETE:"
            else ""),
          w2, ?_, ?_, ?_⟩
        · simp only [runBatch, hfn, hp, hrb]
        · simp [ChatMsg.toolCallId?, hmap]
        · simp [msgIsSentinel, hany]

/-- C1 witness: a concrete batch whose first call is `finished` and whose
second is `read_file`; both produce a tool result. -/
theorem C1_witness :
    (∀ tc ∈ callsW, toolCallOk tc = true) ∧
    (∃ msgs fin summ w2,
      runBatch w0 callsW = .ok (msgs, fin, summ, w2) ∧
      msgs.map ChatMsg.toolCallId? = callsW.map (fun tc => some tc.id) ∧
      fin = msgs.any msgIsSentinel) :=
  ⟨by decide, C1_batch_one_result_per_call w0 callsW (by decide)⟩

/-- C3: at or above the depth ceiling the driver appends exactly the fixed
advisory assistant message and halts — no tool executes, no request is
sent, no exception escapes — and below it, at most
`MAX_RECURSION_DEPTH - depth` further requests are ever sent, so the depth
counter never exceeds the ceiling. -/
theorem C3_recursion_ceiling :
    (∀ (oracle : List ChatMsg → ReplyMsg) (message : ReplyMsg) (messages : List Message)
       (userInput systemPrompt : String) (w : World) (depth : Nat),
       APP_CONFIG.MAX_RECURSION_DEPTH ≤ depth →
       handleToolCalls oracle message messages userInput systemPrompt w depth =
         .ok ([⟨messages.length + 2, "assistant",
               "I\x27ve reached the maximum number of tool calls. Please try breaking your request into smaller parts."⟩],
              w, [])) ∧
    (∀ (oracle : List ChatMsg → ReplyMsg) (message : ReplyMsg) (messages : List Message)
       (userInput systemPrompt : String) (w : World) (depth : Nat) ms w2 reqs,
       handleToolCalls oracle message messages userInput systemPrompt w depth =
         .ok (ms, w2, reqs) →
       reqs.length ≤ APP_CONFIG.MAX_RECURSION_DEPTH - depth) := by
  constructor
  · intro oracle message messages ui sp w depth hge
    unfold handleToolCalls
    rw [Nat.sub_eq_zero_of_le hge]
    rfl
  · intro oracle message messages ui sp w depth ms w2 reqs h
    exact handleToolCallsFrom_reqs_len _ oracle message messages ui sp w ms w2 reqs h

/-- C3 witness: at depth exactly 10 the driver halts with the advisory. -/
theorem C3_witness :
    APP_CONFIG.MAX_RECURSION_DEPTH ≤ 10 ∧
    handleToolCalls oracle0 msg0 [] "u" "s" w0 10 =
      .ok ([⟨2, "assistant",
            "I\x27ve reached the maximum number of tool calls. Please try breaking your request into smaller parts."⟩],
           w0, []) :=
  ⟨by decide, C3_recursion_ceiling.1 oracle0 msg0 [] "u" "s" w0 10 (by decide)⟩

/-- C4: the executor is total — it returns a result string for every tool
call and world; an unknown tool name yields exactly `Unknown tool: <name>`
with no state change; a handler failure such as reading a missing file is
converted to a descriptive failure result rather than an exception. -/
theorem C4_executor_never_raises :
    (∀ (tc : ToolCall) (w : World), ∃ s w2, executeTool tc w = (s, w2)) ∧
    (∀ (name : String) (args : List (String × String)) (w : World),
       name ≠ "read_file" → name ≠ "write_file" → name ≠ "list_files" →
       name ≠ "run_command" → name ≠ "finished" →
       executeTool ⟨name, args⟩ w = ("Unknown tool: " ++ name, w)) ∧
    (∀ (args : List (String × String)) (w : World) (p : String),
       lookupArg args "path" = some p → fsRead w p = none →
       executeTool ⟨"read_file", args⟩ w =
         (errRes "read_file" ("No such file or directory: " ++ p), w)) := by
  refine ⟨fun tc w => ⟨(executeTool tc w).1, (executeTool tc w).2, rfl⟩, ?_, ?_⟩
  · intro name args w h1 h2 h3 h4 h5
    simp [executeTool, h1, h2, h3, h4, h5]
  · intro args w p hp hf
    simp [executeTool, hp, hf]

/-- C4 witness: a concrete unknown tool and a concrete missing-file read. -/
theorem C4_witness :
    ("noop" ≠ "read_file" ∧ lookupArg [("path", "a.txt")] "path" = some "a.txt" ∧
      fsRead w0 "a.txt" = none) ∧
    executeTool ⟨"noop", []⟩ w0 = ("Unknown tool: " ++ "noop", w0) ∧
    executeTool ⟨"read_file", [("path", "a.txt")]⟩ w0 =
      (errRes "read_file" ("No such file or directory: " ++ "a.txt"), w0) :=
  ⟨⟨by decide, by decide, by decide⟩,
   C4_executor_never_raises.2.1 "noop" [] w0
     (by decide) (by decide) (by decide) (by decide) (by decide),
   C4_executor_never_raises.2.2 [("path", "a.txt")] w0 "a.txt" (by decide) (by decide)⟩

/-- C6: `finished(summary)` returns exactly the sentinel prefix followed by
the summary with no state change; a string of that shape passes the
driver's `startsWith` check and the driver's `replace` recovers exactly the
summary; and no other tool can produce a result starting with the sentinel
prefix. -/
theorem C6_sentinel_protocol :
    (∀ (args : List (String × String)) (w : World) (s : String),
       lookupArg args "summary" = some s →
       executeTool ⟨"finished", args⟩ w = ("CONVERSATION_COMPLETE:" ++ s, w)) ∧
    (∀ s : String,
       startsWithLit ("CONVERSATION_COMPLETE:" ++ s) "CONVERSATION_COMPLETE:" = true ∧
       replaceFirst ("CONVERSATION_COMPLETE:" ++ s) "CONVERSATION_COMPLETE:" = s) ∧
    (∀ (tc : ToolCall) (w : World), tc.name ≠ "finished" →
       startsWithLit (executeTool tc w).1 "CONVERSATION_COMPLETE:" = false) := by
  refine ⟨?_, ?_, ?_⟩
  · intro args w s hs
    simp [executeTool, hs]
  · intro s
    exact ⟨startsWithLit_self_append _ _, replaceFirst_self_append _ _⟩
  · intro tc w hn
    simp only [executeTool, errRes]
    repeat' split
    all_goals first
      | contradiction
      | decide
      | exact startsWithLit_append_false "Error executing " _ (by decide) (by decide)
      | exact startsWithLit_append_false "File contents of " _ (by decide) (by decide)
      | exact startsWithLit_append_false "✅ Successfully wrote to " _ (by decide) (by decide)
      | exact startsWithLit_append_false "Contents of " _ (by decide) (by decide)
      | exact startsWithLit_append_false "Command failed (exit code " _ (by decide) (by decide)
      | exact startsWithLit_append_false "Command output:\n" _ (by decide) (by decide)
      | exact startsWithLit_append_false "Unknown tool: " _ (by decide) (by decide)

/-- C6 witness: a concrete `finished` call yields exactly the tagged
summary, and a concrete non-`finished` call's result does not start with
the sentinel. -/
theorem C6_witness :
    (lookupArg [("summary", "hi")] "summary" = some "hi" ∧ ("read_file" : String) ≠ "finished") ∧
    executeTool ⟨"finished", [("summary", "hi")]⟩ w0 = ("CONVERSATION_COMPLETE:" ++ "hi", w0) ∧
    startsWithLit (executeTool ⟨"read_file", []⟩ w0).1 "CONVERSATION_COMPLETE:" = false :=
  ⟨⟨by decide, by decide⟩,
   C6_sentinel_protocol.1 [("summary", "hi")] w0 "hi" (by decide),
   C6_sentinel_protocol.2.2 ⟨"read_file", []⟩ w0 (by decide)⟩

/-- C7: when a batch below the ceiling signals termination, the driver
appends exactly one assistant message whose content is the assistant's own
text when that text is non-empty, and `Task completed: <summary>` when the
text is absent or empty; no follow-up request is sent. -/
theorem C7_final_message (oracle : List ChatMsg → ReplyMsg) (message : ReplyMsg)
    (messages : List Message) (userInput systemPrompt : String) (w : World) (depth : Nat)
    (tms : List ChatMsg) (summ : String) (w1 : World)
    (hd : depth < APP_CONFIG.MAX_RECURSION_DEPTH)
    (hb : runBatch w (message.tool_calls?.getD []) = .ok (tms, true, summ, w1)) :
    handleToolCalls oracle message messages userInput systemPrompt w depth =
      .ok ([⟨messages.length + 2, "assistant",
            contentOrDefault message.content? ("Task completed: " ++ summ)⟩], w1, []) ∧
    ((message.content? = none ∨ message.content? = some "") →
       contentOrDefault message.content? ("Task completed: " ++ summ) =
         "Task completed: " ++ summ) ∧
    (∀ c, message.content? = some c → c ≠ "" →
       contentOrDefault message.content? ("Task completed: " ++ summ) = c) := by
  have hne : APP_CONFIG.MAX_RECURSION_DEPTH - depth ≠ 0 := Nat.sub_ne_zero_of_lt hd
  obtain ⟨k, hk⟩ := Nat.exists_eq_succ_of_ne_zero hne
  refine ⟨?_, ?_, ?_⟩
  · unfold handleToolCalls
    rw [hk]
    simp only [handleToolCallsFrom, hb]
    simp
  · intro hc
    cases hc with
    | inl hc => simp [contentOrDefault, hc]
    | inr hc => simp [contentOrDefault, hc]
  · intro c hc hcne
    simp [contentOrDefault, hc, hcne]

/-- C7 witness: the spec's scenario — `finished(summary="Listed 3 files")`
as the only call with null content yields the final assistant message
`Task completed: Listed 3 files`. -/
theorem C7_witness :
    (0 < APP_CONFIG.MAX_RECURSION_DEPTH ∧
      runBatch w0 (msg7.tool_calls?.getD []) =
        .ok ([ChatMsg.toolResult "CONVERSATION_COMPLETE:Listed 3 files" "f1"], true,
             "Listed 3 files", w0)) ∧
    handleToolCalls oracle0 msg7 [] "hi" "s" w0 0 =
      .ok ([⟨2, "assistant", "Task completed: Listed 3 files"⟩], w0, []) :=
  ⟨⟨by decide, rfl⟩,
   (C7_final_message oracle0 msg7 [] "hi" "s" w0 0
      [ChatMsg.toolResult "CONVERSATION_COMPLETE:Listed 3 files" "f1"]
      "Listed 3 files" w0 (by decide) rfl).1⟩

/-- C10: `run_command` on exit code 0 returns exactly the fixed header plus
the captured stdout (stderr plays no part), and on a non-zero exit returns
exactly the failure header reporting the exit code plus the captured stderr
(stdout plays no part). -/
theorem C10_run_command_streams (w : World) (args : List (String × String)) (c : String)
    (h : lookupArg args "command" = some c) :
    (∀ out err, w.shellRuns c = (0, out, err) →
       executeTool ⟨"run_command", args⟩ w = ("Command output:\n" ++ out, w)) ∧
    (∀ code out err, w.shellRuns c = (code, out, err) → code ≠ 0 →
       executeTool ⟨"run_command", args⟩ w =
         ("Command failed (exit code " ++ (toString code ++ ("):\n" ++ err)), w)) := by
  constructor
  · intro out err hr
    simp [executeTool, h, hr]
  · intro code out err hr hc
    simp [executeTool, h, hr, hc]

/-- C10 witness: concrete commands with both streams populated show stderr
discarded on success and stdout discarded on failure. -/
theorem C10_witness :
    (lookupArg [("command", "true")] "command" = some "true" ∧
      wSh.shellRuns "true" = (0, "ok", "junk") ∧
      lookupArg [("command", "false")] "command" = some "false" ∧
      wSh.shellRuns "false" = (1, "junk", "boom") ∧ (1 : Int) ≠ 0) ∧
    executeTool ⟨"run_command", [("command", "true")]⟩ wSh = ("Command output:\n" ++ "ok", wSh) ∧
    executeTool ⟨"run_command", [("command", "false")]⟩ wSh =
      ("Command failed (exit code " ++ (toString (1 : Int) ++ ("):\n" ++ "boom")), wSh) :=
  ⟨⟨by decide, by decide, by decide, by decide, by decide⟩,
   (C10_run_command_streams wSh [("command", "true")] "true" (by decide)).1 "ok" "junk" (by decide),
   (C10_run_command_streams wSh [("command", "false")] "false" (by decide)).2 1 "junk" "boom"
     (by decide) (by decide)⟩

/-- C8: writing identical content over an existing file yields a diff block
containing the line `No changes detected.`, and an approved write succeeds
while leaving every observable file content unchanged (a no-op write). -/
theorem C8_identical_write_noop :
    (∀ content filePath, ∃ a b,
       createDiff content content filePath = a ++ "No changes detected.\n" ++ b) ∧
    (∀ (w : World) (args : List (String × String)) (p c : String),
       lookupArg args "path" = some p →
       lookupArg args "content" = some c →
       fsRead w p = some c →
       approves (promptHead w) = true →
       ∃ w2, executeTool ⟨"write_file", args⟩ w = ("✅ Successfully wrote to " ++ p, w2) ∧
         ∀ q, fsRead w2 q = fsRead w q) := by
  constructor
  · intro content filePath
    refine ⟨"📝 Changes to " ++ filePath ++ ":\n" ++ eqBar ++ "\n", eqBar, ?_⟩
    simp only [createDiff]
    rw [foldl_fixed]
    · rfl
    · intro acc i
      simp
  · intro w args p c hp hc hf happ
    have hq2 : ∃ r rest, w.promptQueue = r :: rest ∧ approves r = true := by
      unfold promptHead at happ
      cases hqq : w.promptQueue with
      | nil => rw [hqq] at happ; cases happ
      | cons r rest => rw [hqq] at happ; exact ⟨r, rest, rfl, happ⟩
    obtain ⟨r, rest, hqq, har⟩ := hq2
    simp only [executeTool, hp, hc, hf, Option.bind, Option.getD, takePrompt, hqq, har]
    rw [if_neg (by decide), if_pos trivial, if_pos trivial]
    refine ⟨_, rfl, ?_⟩
    intro q
    show assocLookup (assocSet w.fs p c) q = fsRead w q
    rw [assocLookup_assocSet]
    by_cases hqp : q = p
    · rw [if_pos hqp, hqp]
      exact hf.symm
    · rw [if_neg hqp]
      rfl

/-- C8 witness: approving an identical write of `x` to `a.txt` succeeds and
leaves the file contents unchanged. -/
theorem C8_witness :
    (lookupArg [("path", "a.txt"), ("content", "x")] "path" = some "a.txt" ∧
      lookupArg [("path", "a.txt"), ("content", "x")] "content" = some "x" ∧
      fsRead wYes "a.txt" = some "x" ∧ approves (promptHead wYes) = true) ∧
    (∃ a b, createDiff "x" "x" "a.txt" = a ++ "No changes detected.\n" ++ b) ∧
    (∃ w2, executeTool ⟨"write_file", [("path", "a.txt"), ("content", "x")]⟩ wYes =
        ("✅ Successfully wrote to " ++ "a.txt", w2) ∧
      ∀ q, fsRead w2 q = fsRead wYes q) :=
  ⟨⟨by decide, by decide, by decide, by decide⟩,
   C8_identical_write_noop.1 "x" "a.txt",
   C8_identical_write_noop.2 wYes [("path", "a.txt"), ("content", "x")] "a.txt" "x"
     (by decide) (by decide) (by decide) (by decide)⟩

/-- C9: declining the approval prompt for `write_file` returns exactly the
cancellation result string and leaves the file system untouched; no
exception arises (the embedding is total). -/
theorem C9_decline_leaves_file (w : World) (args : List (String × String)) (c : String)
    (hc : lookupArg args "content" = some c)
    (happ : approves (promptHead w) = false) :
    ∃ w2, executeTool ⟨"write_file", args⟩ w = ("❌ File write cancelled by user", w2) ∧
      w2.fs = w.fs ∧ ∀ q, fsRead w2 q = fsRead w q := by
  cases hqq : w.promptQueue with
  | nil =>
    simp only [executeTool, hc, takePrompt, hqq, approves]
    exact ⟨_, rfl, rfl, fun q => rfl⟩
  | cons r rest =>
    have har : approves r = false := by
      unfold promptHead at happ
      rw [hqq] at happ
      exact happ
    simp only [executeTool, hc, takePrompt, hqq, har]
    exact ⟨_, rfl, rfl, fun q => rfl⟩

/-- C9 witness: the operator answers `n`; the write is cancelled and
`a.txt` still reads `x`. -/
theorem C9_witness :
    (lookupArg [("path", "a.txt"), ("content", "new")] "content" = some "new" ∧
      approves (promptHead wNo) = false) ∧
    (∃ w2, executeTool ⟨"write_file", [("path", "a.txt"), ("content", "new")]⟩ wNo =
        ("❌ File write cancelled by user", w2) ∧
      w2.fs = wNo.fs ∧ ∀ q, fsRead w2 q = fsRead wNo q) :=
  ⟨⟨by decide, by decide⟩,
   C9_decline_leaves_file wNo [("path", "a.txt"), ("content", "new")] "new"
     (by decide) (by decide)⟩

/-- C2 counterexample: in a concrete two-round turn the second follow-up
request is NOT the previous request plus the newest assistant tool-call
message and its tool results — the first round's assistant message and tool
result are dropped, because the driver rebuilds each request from the
original UI history. -/
theorem C2_counterexample :
    requestsOf (handleUserMessage oracleC2 "hi" [] "s" w0) = some [reqBaseV, req1V, req2V] ∧
    req2V ≠ req1V ++ [ChatMsg.assistantCalls (some "c2") [⟨"ib", some ⟨"noopB", "\x7b\x7d"⟩⟩],
                      ChatMsg.toolResult "Unknown tool: noopB" "ib"] := by
  constructor
  · rfl
  · decide

/-- C2 amended: every request the driver sends during tool resolution
consists of the fixed base history (system prompt, prior UI messages, user
input) followed by exactly one assistant tool-call message and its
tool-result messages; messages from earlier rounds of the same turn are
omitted, so the sequence is NOT the previous request plus the newest
additions. -/
theorem C2_requests_rebuilt_from_base (oracle : List ChatMsg → ReplyMsg)
    (message : ReplyMsg) (messages : List Message) (userInput systemPrompt : String)
    (w : World) (depth : Nat) (ms : List Message) (w2 : World) (reqs : List (List ChatMsg))
    (h : handleToolCalls oracle message messages userInput systemPrompt w depth =
      .ok (ms, w2, reqs)) :
    ∀ r ∈ reqs, ∃ m calls tms,
      r = chatBase systemPrompt messages userInput ++
          (ChatMsg.assistantCalls m calls :: tms) ∧
      ∀ t ∈ tms, ∃ c i, t = ChatMsg.toolResult c i := by
  unfold handleToolCalls at h
  exact handleToolCallsFrom_reqs_shape _ oracle message messages userInput systemPrompt
    w ms w2 reqs h

/-- C2 amended witness: the first request of the concrete two-round
scenario has exactly the base-plus-current-round shape. -/
theorem C2_amended_witness :
    ∃ m calls tms,
      req1V = chatBase "s" [] "hi" ++ (ChatMsg.assistantCalls m calls :: tms) ∧
      ∀ t ∈ tms, ∃ c i, t = ChatMsg.toolResult c i :=
  C2_requests_rebuilt_from_base oracleC2 mA [] "hi" "s" w0 0 _ _ [req1V, req2V]
    rfl req1V (by decide)

/-- C5 counterexample: a tool call whose raw argument text is not JSON does
NOT become an ordinary failure tool-result — the parse failure propagates
out of the turn driver as a turn-level error. -/
theorem C5_counterexample :
    handleToolCalls oracle0 msgBadArgs [] "u" "s" w0 0 =
      .error (TurnError.parseFailure "read_file" "nope") := by
  rfl

/-- C5 amended: when a batch contains a call whose raw argument payload
fails to parse (all earlier calls parsing fine), the driver aborts the turn
with that parse error: no tool-result message is appended for the batch and
the error propagates out of the turn driver, to be rendered by the calling
UI layer. -/
theorem C5_parse_failure_propagates (oracle : List ChatMsg → ReplyMsg)
    (message : ReplyMsg) (messages : List Message) (userInput systemPrompt : String)
    (w : World) (depth : Nat) (pre : List RawToolCall) (bad : RawToolCall)
    (rest : List RawToolCall) (fn : RawFunction)
    (hd : depth < APP_CONFIG.MAX_RECURSION_DEPTH)
    (hc : message.tool_calls? = some (pre ++ bad :: rest))
    (hok : ∀ tc ∈ pre, toolCallOk tc = true)
    (hfn : bad.function? = some fn)
    (hp : parseJsonObj fn.arguments = none) :
    handleToolCalls oracle message messages userInput systemPrompt w depth =
      .error (TurnError.parseFailure fn.name fn.arguments) := by
  have hne : APP_CONFIG.MAX_RECURSION_DEPTH - depth ≠ 0 := Nat.sub_ne_zero_of_lt hd
  obtain ⟨k, hk⟩ := Nat.exists_eq_succ_of_ne_zero hne
  unfold handleToolCalls
  rw [hk]
  simp only [handleToolCallsFrom, hc, Option.getD,
    runBatch_append_parseError pre w bad rest fn hok hfn hp]

/-- C5 amended witness: a well-formed `list_files` call followed by a call
with malformed arguments aborts the whole turn with the parse error. -/
theorem C5_witness :
    (0 < APP_CONFIG.MAX_RECURSION_DEPTH ∧
      msgMixedBad.tool_calls? =
        some ([⟨"i1", some ⟨"list_files", "\x7b\x7d"⟩⟩] ++
              ⟨"i2", some ⟨"read_file", "oops"⟩⟩ :: []) ∧
      parseJsonObj "oops" = none) ∧
    handleToolCalls oracle0 msgMixedBad [] "u" "s" w0 0 =
      .error (TurnError.parseFailure "read_file" "oops") :=
  ⟨⟨by decide, rfl, by decide⟩,
   C5_parse_failure_propagates oracle0 msgMixedBad [] "u" "s" w0 0
     [⟨"i1", some ⟨"list_files", "\x7b\x7d"⟩⟩] ⟨"i2", some ⟨"read_file", "oops"⟩⟩ []
     ⟨"read_file", "oops"⟩ (by decide) rfl (by decide) rfl (by decide)⟩

end LlmCli
